import Mathlib

/-!
Verification of the flyweight caches and proxy/adapter components of the
design-patterns-go-lang repository, shallowly embedded in Lean 4.

Modelling conventions:
* Go maps (`map[string]*T`) are modelled as association lists
  `List (String × Nat)` together with an allocation list `List T`; a Go
  pointer (`*T`) is modelled as the index (`Nat`) of the object in the
  allocation list, so pointer identity is index equality and each fresh
  allocation yields a fresh index.
* Go strings are modelled at character granularity (`String`); the examples
  in the repository only use ASCII, where byte and character indexing agree.
* A Go method that can panic is modelled with an `Option` result, `none`
  standing for the panic.
-/

namespace DPG

/-- Lookup in an association list, modelling Go's `m[key]` two-result read. -/
def mapLookup {β : Type} (m : List (String × β)) (k : String) : Option β :=
  match m with
  | [] => none
  | e :: rest => if k = e.1 then some e.2 else mapLookup rest k

theorem mapLookup_append_left {β : Type} {m : List (String × β)} {k : String} {v : β}
    (h : mapLookup m k = some v) (m' : List (String × β)) :
    mapLookup (m ++ m') k = some v := by
  induction m with
  | nil => simp [mapLookup] at h
  | cons e rest ih =>
    simp only [mapLookup] at h ⊢
    split at h
    · simp_all [mapLookup]
    · simp_all [mapLookup]

theorem mapLookup_append_right {β : Type} {m : List (String × β)} {k : String}
    (h : mapLookup m k = none) (m' : List (String × β)) :
    mapLookup (m ++ m') k = mapLookup m' k := by
  induction m with
  | nil => simp
  | cons e rest ih =>
    simp only [mapLookup] at h ⊢
    split at h
    · simp_all
    · simp_all [mapLookup]

theorem mapLookup_mem {β : Type} {m : List (String × β)} {k : String} {v : β}
    (h : mapLookup m k = some v) : (k, v) ∈ m := by
  induction m with
  | nil => simp [mapLookup] at h
  | cons e rest ih =>
    simp only [mapLookup] at h
    split at h
    · rename_i heq
      cases h
      cases e
      simp_all
    · right
      exact ih h

theorem mapLookup_eq_none_iff {β : Type} {m : List (String × β)} {k : String} :
    mapLookup m k = none ↔ k ∉ m.map Prod.fst := by
  induction m with
  | nil => simp [mapLookup]
  | cons e rest ih =>
    simp only [mapLookup, List.map_cons, List.mem_cons]
    split
    · rename_i heq
      simp [heq]
    · rename_i hne
      simp [ih, hne]

/-! ## Flyweight: tree types (`TreeType`, `TreeTypeFactory`, `Forest`) -/

structure TreeType where
  name : String
  color : String
  texture : String
deriving DecidableEq, Repr

def NewTreeType (name color texture : String) : TreeType :=
  { name := name, color := color, texture := texture }

/-- Cache key, as built in the source: `name + "-" + color + "-" + texture`. -/
def treeKey (name color texture : String) : String :=
  name ++ "-" ++ color ++ "-" ++ texture

structure TreeTypeFactory where
  treeTypes : List (String × Nat)
  allocated : List TreeType
deriving DecidableEq, Repr

def NewTreeTypeFactory : TreeTypeFactory :=
  { treeTypes := [], allocated := [] }

def TreeTypeFactory.GetTreeType (f : TreeTypeFactory) (name color texture : String) :
    Nat × TreeTypeFactory :=
  let key := treeKey name color texture
  match mapLookup f.treeTypes key with
  | some ref => (ref, f)
  | none =>
    let ref := f.allocated.length
    (ref, { treeTypes := f.treeTypes ++ [(key, ref)],
            allocated := f.allocated ++ [NewTreeType name color texture] })

def TreeTypeFactory.GetTotalTypes (f : TreeTypeFactory) : Nat :=
  f.treeTypes.length

structure Tree where
  x : Int
  y : Int
  treeType : Nat
deriving DecidableEq, Repr

def NewTree (x y : Int) (treeType : Nat) : Tree :=
  { x := x, y := y, treeType := treeType }

structure Forest where
  trees : List Tree
  factory : TreeTypeFactory
deriving DecidableEq, Repr

def NewForest : Forest :=
  { trees := [], factory := NewTreeTypeFactory }

def Forest.PlantTree (f : Forest) (x y : Int) (name color texture : String) : Forest :=
  let r := f.factory.GetTreeType name color texture
  { trees := f.trees ++ [NewTree x y r.1], factory := r.2 }

/-! ## Flyweight: character styles (`CharacterStyle`, `StyleFactory`) -/

structure CharacterStyle where
  font : String
  size : Int
  color : String
  bold : Bool
  italic : Bool
deriving DecidableEq, Repr

def NewCharacterStyle (font : String) (size : Int) (color : String) (bold italic : Bool) :
    CharacterStyle :=
  { font := font, size := size, color := color, bold := bold, italic := italic }

/-- Cache key, as built by `fmt.Sprintf("%s-%d-%s-%t-%t", ...)` in the source. -/
def styleKey (font : String) (size : Int) (color : String) (bold italic : Bool) : String :=
  font ++ "-" ++ toString size ++ "-" ++ color ++ "-" ++
    (if bold then "true" else "false") ++ "-" ++ (if italic then "true" else "false")

structure StyleFactory where
  styles : List (String × Nat)
  allocated : List CharacterStyle
deriving DecidableEq, Repr

def NewStyleFactory : StyleFactory :=
  { styles := [], allocated := [] }

def StyleFactory.GetStyle (f : StyleFactory) (font : String) (size : Int) (color : String)
    (bold italic : Bool) : Nat × StyleFactory :=
  let key := styleKey font size color bold italic
  match mapLookup f.styles key with
  | some ref => (ref, f)
  | none =>
    let ref := f.allocated.length
    (ref, { styles := f.styles ++ [(key, ref)],
            allocated := f.allocated ++ [NewCharacterStyle font size color bold italic] })

def StyleFactory.GetTotalStyles (f : StyleFactory) : Nat :=
  f.styles.length

/-! ## Flyweight: particle sprites (`ParticleSprite`, `SpriteFactory`) -/

structure ParticleSprite where
  name : String
  color : String
  width : Int
  height : Int
deriving DecidableEq, Repr

def NewParticleSprite (name color : String) (width height : Int) : ParticleSprite :=
  { name := name, color := color, width := width, height := height }

/-- Cache key, as built by `fmt.Sprintf("%s-%s-%d-%d", ...)` in the source. -/
def spriteKey (name color : String) (width height : Int) : String :=
  name ++ "-" ++ color ++ "-" ++ toString width ++ "-" ++ toString height

structure SpriteFactory where
  sprites : List (String × Nat)
  allocated : List ParticleSprite
deriving DecidableEq, Repr

def NewSpriteFactory : SpriteFactory :=
  { sprites := [], allocated := [] }

def SpriteFactory.GetSprite (f : SpriteFactory) (name color : String) (width height : Int) :
    Nat × SpriteFactory :=
  let key := spriteKey name color width height
  match mapLookup f.sprites key with
  | some ref => (ref, f)
  | none =>
    let ref := f.allocated.length
    (ref, { sprites := f.sprites ++ [(key, ref)],
            allocated := f.allocated ++ [NewParticleSprite name color width height] })

def SpriteFactory.GetTotalSprites (f : SpriteFactory) : Nat :=
  f.sprites.length

/-! ## Repeated-acquire lemmas -/

theorem TreeTypeFactory.getTreeType_stable (f : TreeTypeFactory) (name color texture : String) :
    (f.GetTreeType name color texture).2.GetTreeType name color texture
      = f.GetTreeType name color texture := by
  unfold TreeTypeFactory.GetTreeType
  cases h : mapLookup f.treeTypes (treeKey name color texture) with
  | some ref => simp [h]
  | none =>
    have hins : mapLookup (f.treeTypes ++ [(treeKey name color texture, f.allocated.length)])
        (treeKey name color texture) = some f.allocated.length := by
      rw [mapLookup_append_right h]
      simp [mapLookup]
    simp [h, hins]

theorem StyleFactory.getStyle_stable (f : StyleFactory) (font : String) (size : Int)
    (color : String) (bold italic : Bool) :
    (f.GetStyle font size color bold italic).2.GetStyle font size color bold italic
      = f.GetStyle font size color bold italic := by
  unfold StyleFactory.GetStyle
  cases h : mapLookup f.styles (styleKey font size color bold italic) with
  | some ref => simp [h]
  | none =>
    have hins : mapLookup (f.styles ++ [(styleKey font size color bold italic,
        f.allocated.length)]) (styleKey font size color bold italic)
        = some f.allocated.length := by
      rw [mapLookup_append_right h]
      simp [mapLookup]
    simp [h, hins]

theorem SpriteFactory.getSprite_stable (f : SpriteFactory) (name color : String)
    (width height : Int) :
    (f.GetSprite name color width height).2.GetSprite name color width height
      = f.GetSprite name color width height := by
  unfold SpriteFactory.GetSprite
  cases h : mapLookup f.sprites (spriteKey name color width height) with
  | some ref => simp [h]
  | none =>
    have hins : mapLookup (f.sprites ++ [(spriteKey name color width height,
        f.allocated.length)]) (spriteKey name color width height)
        = some f.allocated.length := by
      rw [mapLookup_append_right h]
      simp [mapLookup]
    simp [h, hins]

theorem TreeTypeFactory.lookup_getTreeType (f : TreeTypeFactory) (name color texture : String) :
    mapLookup (f.GetTreeType name color texture).2.treeTypes (treeKey name color texture)
      = some (f.GetTreeType name color texture).1 := by
  unfold TreeTypeFactory.GetTreeType
  cases h : mapLookup f.treeTypes (treeKey name color texture) with
  | some r => simp [h]
  | none =>
    simp only [h]
    rw [mapLookup_append_right h]
    simp [mapLookup]

theorem TreeTypeFactory.getTreeType_hit (f : TreeTypeFactory) {name color texture : String}
    {r : Nat} (h : mapLookup f.treeTypes (treeKey name color texture) = some r) :
    f.GetTreeType name color texture = (r, f) := by
  simp [TreeTypeFactory.GetTreeType, h]

theorem TreeTypeFactory.getTreeType_key_eq (f : TreeTypeFactory)
    (n1 c1 t1 n2 c2 t2 : String) (hk : treeKey n1 c1 t1 = treeKey n2 c2 t2) :
    (f.GetTreeType n1 c1 t1).2.GetTreeType n2 c2 t2
      = ((f.GetTreeType n1 c1 t1).1, (f.GetTreeType n1 c1 t1).2) := by
  have hl := TreeTypeFactory.lookup_getTreeType f n1 c1 t1
  rw [hk] at hl
  exact TreeTypeFactory.getTreeType_hit _ hl

/-- C1: for each of the three flyweight factories, a second acquire call with
the same attribute tuple returns the identical descriptor reference, allocates
no new descriptor object, and leaves the cache's distinct-entry count
unchanged. -/
theorem acquire_twice_same_handle :
    (∀ (f : TreeTypeFactory) (name color texture : String),
      ((f.GetTreeType name color texture).2.GetTreeType name color texture).1
          = (f.GetTreeType name color texture).1
        ∧ ((f.GetTreeType name color texture).2.GetTreeType name color texture).2.allocated
          = (f.GetTreeType name color texture).2.allocated
        ∧ ((f.GetTreeType name color texture).2.GetTreeType name color texture).2.GetTotalTypes
          = (f.GetTreeType name color texture).2.GetTotalTypes)
    ∧ (∀ (f : StyleFactory) (font : String) (size : Int) (color : String) (bold italic : Bool),
      ((f.GetStyle font size color bold italic).2.GetStyle font size color bold italic).1
          = (f.GetStyle font size color bold italic).1
        ∧ ((f.GetStyle font size color bold italic).2.GetStyle font size color
            bold italic).2.allocated
          = (f.GetStyle font size color bold italic).2.allocated
        ∧ ((f.GetStyle font size color bold italic).2.GetStyle font size color
            bold italic).2.GetTotalStyles
          = (f.GetStyle font size color bold italic).2.GetTotalStyles)
    ∧ (∀ (f : SpriteFactory) (name color : String) (width height : Int),
      ((f.GetSprite name color width height).2.GetSprite name color width height).1
          = (f.GetSprite name color width height).1
        ∧ ((f.GetSprite name color width height).2.GetSprite name color
            width height).2.allocated
          = (f.GetSprite name color width height).2.allocated
        ∧ ((f.GetSprite name color width height).2.GetSprite name color
            width height).2.GetTotalSprites
          = (f.GetSprite name color width height).2.GetTotalSprites) := by
  refine ⟨fun f name color texture => ?_, fun f font size color bold italic => ?_,
    fun f name color width height => ?_⟩
  · rw [TreeTypeFactory.getTreeType_stable]
    exact ⟨rfl, rfl, rfl⟩
  · rw [StyleFactory.getStyle_stable]
    exact ⟨rfl, rfl, rfl⟩
  · rw [SpriteFactory.getSprite_stable]
    exact ⟨rfl, rfl, rfl⟩

/-! ## Cache well-formedness

A factory cache is well-formed when every stored reference points below the
allocation frontier and both references and keys are duplicate-free.  Every
factory reachable from its `New...` constructor is well-formed. -/

def CacheWF (m : List (String × Nat)) (n : Nat) : Prop :=
  (∀ p ∈ m, p.2 < n) ∧ (m.map Prod.snd).Nodup ∧ (m.map Prod.fst).Nodup

theorem CacheWF.empty : CacheWF [] 0 := by
  refine ⟨?_, ?_, ?_⟩ <;> simp

theorem CacheWF.insert {m : List (String × Nat)} {n : Nat} (h : CacheWF m n)
    {k : String} (hk : mapLookup m k = none) : CacheWF (m ++ [(k, n)]) (n + 1) := by
  obtain ⟨hb, hs, hf⟩ := h
  refine ⟨?_, ?_, ?_⟩
  · intro p hp
    rcases List.mem_append.mp hp with hp | hp
    · exact Nat.lt_succ_of_lt (hb p hp)
    · simp only [List.mem_singleton] at hp
      subst hp
      exact Nat.lt_succ_self n
  · rw [List.map_append, List.nodup_append]
    refine ⟨hs, by simp, ?_⟩
    intro a ha ha'
    simp only [List.map_cons, List.map_nil, List.mem_singleton] at ha'
    obtain ⟨p, hp, hpa⟩ := List.mem_map.mp ha
    have := hb p hp
    omega
  · rw [List.map_append, List.nodup_append]
    refine ⟨hf, by simp, ?_⟩
    intro a ha ha'
    simp only [List.map_cons, List.map_nil, List.mem_singleton] at ha'
    exact (mapLookup_eq_none_iff.mp hk) (ha' ▸ ha)

theorem CacheWF.lookup_lt {m : List (String × Nat)} {n : Nat} {k : String} {r : Nat}
    (h : CacheWF m n) (hl : mapLookup m k = some r) : r < n :=
  h.1 _ (mapLookup_mem hl)

theorem CacheWF.lookup_inj {m : List (String × Nat)} {n : Nat} {k1 k2 : String} {r1 r2 : Nat}
    (h : CacheWF m n) (hk : k1 ≠ k2) (h1 : mapLookup m k1 = some r1)
    (h2 : mapLookup m k2 = some r2) : r1 ≠ r2 := by
  intro he
  have hm1 := mapLookup_mem h1
  have hm2 := mapLookup_mem h2
  have heq : ((k1, r1) : String × Nat) = (k2, r2) :=
    List.inj_on_of_nodup_map h.2.1 hm1 hm2 he
  exact hk (congrArg Prod.fst heq)

def TreeTypeFactory.WF (f : TreeTypeFactory) : Prop :=
  CacheWF f.treeTypes f.allocated.length

theorem TreeTypeFactory.newTreeFactory_WF : NewTreeTypeFactory.WF :=
  CacheWF.empty

theorem TreeTypeFactory.WF_getTreeType {f : TreeTypeFactory} (h : f.WF)
    (name color texture : String) : (f.GetTreeType name color texture).2.WF := by
  unfold TreeTypeFactory.GetTreeType
  cases hl : mapLookup f.treeTypes (treeKey name color texture) with
  | some r => simpa [hl] using h
  | none =>
    simp only [hl]
    have := CacheWF.insert h hl
    simpa [TreeTypeFactory.WF] using this

def StyleFactory.WF (f : StyleFactory) : Prop :=
  CacheWF f.styles f.allocated.length

theorem StyleFactory.newStyleFactory_WF : NewStyleFactory.WF :=
  CacheWF.empty

theorem StyleFactory.WF_getStyle {f : StyleFactory} (h : f.WF) (font : String) (size : Int)
    (color : String) (bold italic : Bool) : (f.GetStyle font size color bold italic).2.WF := by
  unfold StyleFactory.GetStyle
  cases hl : mapLookup f.styles (styleKey font size color bold italic) with
  | some r => simpa [hl] using h
  | none =>
    simp only [hl]
    have := CacheWF.insert h hl
    simpa [StyleFactory.WF] using this

def SpriteFactory.WF (f : SpriteFactory) : Prop :=
  CacheWF f.sprites f.allocated.length

theorem SpriteFactory.newSpriteFactory_WF : NewSpriteFactory.WF :=
  CacheWF.empty

theorem SpriteFactory.WF_getSprite {f : SpriteFactory} (h : f.WF) (name color : String)
    (width height : Int) : (f.GetSprite name color width height).2.WF := by
  unfold SpriteFactory.GetSprite
  cases hl : mapLookup f.sprites (spriteKey name color width height) with
  | some r => simpa [hl] using h
  | none =>
    simp only [hl]
    have := CacheWF.insert h hl
    simpa [SpriteFactory.WF] using this

/-! ## Request sequences -/

def runTreeRequests (f : TreeTypeFactory) (rs : List (String × String × String)) :
    TreeTypeFactory :=
  rs.foldl (fun g r => (g.GetTreeType r.1 r.2.1 r.2.2).2) f

def runStyleRequests (f : StyleFactory) (rs : List (String × Int × String × Bool × Bool)) :
    StyleFactory :=
  rs.foldl (fun g r => (g.GetStyle r.1 r.2.1 r.2.2.1 r.2.2.2.1 r.2.2.2.2).2) f

def runSpriteRequests (f : SpriteFactory) (rs : List (String × String × Int × Int)) :
    SpriteFactory :=
  rs.foldl (fun g r => (g.GetSprite r.1 r.2.1 r.2.2.1 r.2.2.2).2) f

theorem TreeTypeFactory.runTree_WF {f : TreeTypeFactory} (h : f.WF)
    (rs : List (String × String × String)) : (runTreeRequests f rs).WF := by
  induction rs generalizing f with
  | nil => simpa [runTreeRequests] using h
  | cons r rs ih =>
    simp only [runTreeRequests, List.foldl_cons]
    exact ih (TreeTypeFactory.WF_getTreeType h _ _ _)

theorem StyleFactory.runStyle_WF {f : StyleFactory} (h : f.WF)
    (rs : List (String × Int × String × Bool × Bool)) : (runStyleRequests f rs).WF := by
  induction rs generalizing f with
  | nil => simpa [runStyleRequests] using h
  | cons r rs ih =>
    simp only [runStyleRequests, List.foldl_cons]
    exact ih (StyleFactory.WF_getStyle h _ _ _ _ _)

theorem SpriteFactory.runSprite_WF {f : SpriteFactory} (h : f.WF)
    (rs : List (String × String × Int × Int)) : (runSpriteRequests f rs).WF := by
  induction rs generalizing f with
  | nil => simpa [runSpriteRequests] using h
  | cons r rs ih =>
    simp only [runSpriteRequests, List.foldl_cons]
    exact ih (SpriteFactory.WF_getSprite h _ _ _ _)

/-! ## Distinct keys yield distinct handles -/

theorem TreeTypeFactory.getTreeType_ne {f : TreeTypeFactory} (h : f.WF)
    {n1 c1 t1 n2 c2 t2 : String} (hk : treeKey n1 c1 t1 ≠ treeKey n2 c2 t2) :
    ((f.GetTreeType n1 c1 t1).2.GetTreeType n2 c2 t2).1 ≠ (f.GetTreeType n1 c1 t1).1 := by
  unfold TreeTypeFactory.GetTreeType
  cases h1 : mapLookup f.treeTypes (treeKey n1 c1 t1) with
  | some r1 =>
    simp only [h1]
    cases h2 : mapLookup f.treeTypes (treeKey n2 c2 t2) with
    | some r2 =>
      simp only [h2]
      exact (CacheWF.lookup_inj h hk h1 h2).symm
    | none =>
      simp only [h2]
      exact Nat.ne_of_gt (CacheWF.lookup_lt h h1)
  | none =>
    simp only [h1]
    cases h2 : mapLookup f.treeTypes (treeKey n2 c2 t2) with
    | some r2 =>
      have h2' : mapLookup (f.treeTypes ++ [(treeKey n1 c1 t1, f.allocated.length)])
          (treeKey n2 c2 t2) = some r2 := mapLookup_append_left h2 _
      simp only [h2']
      exact Nat.ne_of_lt (CacheWF.lookup_lt h h2)
    | none =>
      have h2' : mapLookup (f.treeTypes ++ [(treeKey n1 c1 t1, f.allocated.length)])
          (treeKey n2 c2 t2) = none := by
        rw [mapLookup_append_right h2]
        simp only [mapLookup]
        rw [if_neg (fun he => hk he.symm)]
      simp only [h2']
      simp

theorem StyleFactory.getStyle_ne {f : StyleFactory} (h : f.WF)
    {f1 c1 : String} {s1 : Int} {b1 i1 : Bool} {f2 c2 : String} {s2 : Int} {b2 i2 : Bool}
    (hk : styleKey f1 s1 c1 b1 i1 ≠ styleKey f2 s2 c2 b2 i2) :
    ((f.GetStyle f1 s1 c1 b1 i1).2.GetStyle f2 s2 c2 b2 i2).1
      ≠ (f.GetStyle f1 s1 c1 b1 i1).1 := by
  unfold StyleFactory.GetStyle
  cases h1 : mapLookup f.styles (styleKey f1 s1 c1 b1 i1) with
  | some r1 =>
    simp only [h1]
    cases h2 : mapLookup f.styles (styleKey f2 s2 c2 b2 i2) with
    | some r2 =>
      simp only [h2]
      exact (CacheWF.lookup_inj h hk h1 h2).symm
    | none =>
      simp only [h2]
      exact Nat.ne_of_gt (CacheWF.lookup_lt h h1)
  | none =>
    simp only [h1]
    cases h2 : mapLookup f.styles (styleKey f2 s2 c2 b2 i2) with
    | some r2 =>
      have h2' : mapLookup (f.styles ++ [(styleKey f1 s1 c1 b1 i1, f.allocated.length)])
          (styleKey f2 s2 c2 b2 i2) = some r2 := mapLookup_append_left h2 _
      simp only [h2']
      exact Nat.ne_of_lt (CacheWF.lookup_lt h h2)
    | none =>
      have h2' : mapLookup (f.styles ++ [(styleKey f1 s1 c1 b1 i1, f.allocated.length)])
          (styleKey f2 s2 c2 b2 i2) = none := by
        rw [mapLookup_append_right h2]
        simp only [mapLookup]
        rw [if_neg (fun he => hk he.symm)]
      simp only [h2']
      simp

theorem SpriteFactory.getSprite_ne {f : SpriteFactory} (h : f.WF)
    {m1 c1 : String} {w1 h1' : Int} {m2 c2 : String} {w2 h2' : Int}
    (hk : spriteKey m1 c1 w1 h1' ≠ spriteKey m2 c2 w2 h2') :
    ((f.GetSprite m1 c1 w1 h1').2.GetSprite m2 c2 w2 h2').1
      ≠ (f.GetSprite m1 c1 w1 h1').1 := by
  unfold SpriteFactory.GetSprite
  cases h1 : mapLookup f.sprites (spriteKey m1 c1 w1 h1') with
  | some r1 =>
    simp only [h1]
    cases h2 : mapLookup f.sprites (spriteKey m2 c2 w2 h2') with
    | some r2 =>
      simp only [h2]
      exact (CacheWF.lookup_inj h hk h1 h2).symm
    | none =>
      simp only [h2]
      exact Nat.ne_of_gt (CacheWF.lookup_lt h h1)
  | none =>
    simp only [h1]
    cases h2 : mapLookup f.sprites (spriteKey m2 c2 w2 h2') with
    | some r2 =>
      have h2' : mapLookup (f.sprites ++ [(spriteKey m1 c1 w1 h1', f.allocated.length)])
          (spriteKey m2 c2 w2 h2') = some r2 := mapLookup_append_left h2 _
      simp only [h2']
      exact Nat.ne_of_lt (CacheWF.lookup_lt h h2)
    | none =>
      have h2'' : mapLookup (f.sprites ++ [(spriteKey m1 c1 w1 h1', f.allocated.length)])
          (spriteKey m2 c2 w2 h2') = none := by
        rw [mapLookup_append_right h2]
        simp only [mapLookup]
        rw [if_neg (fun he => hk he.symm)]
      simp only [h2'']
      simp

theorem TreeTypeFactory.getTotalTypes_miss {f : TreeTypeFactory} {name color texture : String}
    (h : mapLookup f.treeTypes (treeKey name color texture) = none) :
    (f.GetTreeType name color texture).2.GetTotalTypes = f.GetTotalTypes + 1 := by
  simp [TreeTypeFactory.GetTreeType, h, TreeTypeFactory.GetTotalTypes]

theorem StyleFactory.getTotalStyles_miss {f : StyleFactory} {font color : String}
    {size : Int} {bold italic : Bool}
    (h : mapLookup f.styles (styleKey font size color bold italic) = none) :
    (f.GetStyle font size color bold italic).2.GetTotalStyles = f.GetTotalStyles + 1 := by
  simp [StyleFactory.GetStyle, h, StyleFactory.GetTotalStyles]

theorem SpriteFactory.getTotalSprites_miss {f : SpriteFactory} {name color : String}
    {width height : Int}
    (h : mapLookup f.sprites (spriteKey name color width height) = none) :
    (f.GetSprite name color width height).2.GetTotalSprites = f.GetTotalSprites + 1 := by
  simp [SpriteFactory.GetSprite, h, SpriteFactory.GetTotalSprites]

/-- C3: the naive `"-"`-joined key construction collides on logically distinct
attribute tuples: for any texture `t` and any factory state,
`GetTreeType "Red-Oak" "Green" t` and `GetTreeType "Red" "Oak-Green" t`
compute the same cache key, so the second call returns the identical shared
descriptor reference. -/
theorem treeKey_collision_shares_descriptor :
    ∀ (texture : String) (f : TreeTypeFactory),
      treeKey "Red-Oak" "Green" texture = treeKey "Red" "Oak-Green" texture
      ∧ ((f.GetTreeType "Red-Oak" "Green" texture).2.GetTreeType "Red" "Oak-Green" texture).1
          = (f.GetTreeType "Red-Oak" "Green" texture).1 := by
  intro texture f
  have hk : treeKey "Red-Oak" "Green" texture = treeKey "Red" "Oak-Green" texture := by
    unfold treeKey
    have hlit : (("Red-Oak" ++ "-") ++ "Green") ++ "-" = (("Red" ++ "-") ++ "Oak-Green") ++ "-" := by
      decide
    calc "Red-Oak" ++ "-" ++ "Green" ++ "-" ++ texture
        = ((("Red-Oak" ++ "-") ++ "Green") ++ "-") ++ texture := rfl
      _ = ((("Red" ++ "-") ++ "Oak-Green") ++ "-") ++ texture := by rw [hlit]
      _ = "Red" ++ "-" ++ "Oak-Green" ++ "-" ++ texture := rfl
  refine ⟨hk, ?_⟩
  rw [TreeTypeFactory.getTreeType_key_eq f "Red-Oak" "Green" texture "Red" "Oak-Green" texture hk]

/-! ## Additivity lemmas -/

theorem TreeTypeFactory.getTreeType_lookup_mono {f : TreeTypeFactory} {k : String} {v : Nat}
    (h : mapLookup f.treeTypes k = some v) (name color texture : String) :
    mapLookup (f.GetTreeType name color texture).2.treeTypes k = some v := by
  unfold TreeTypeFactory.GetTreeType
  cases hl : mapLookup f.treeTypes (treeKey name color texture) with
  | some r =>
    simp only [hl]
    exact h
  | none =>
    simp only [hl]
    exact mapLookup_append_left h _

theorem TreeTypeFactory.getTreeType_allocated_extend (f : TreeTypeFactory)
    (name color texture : String) :
    ∃ ds, (f.GetTreeType name color texture).2.allocated = f.allocated ++ ds := by
  unfold TreeTypeFactory.GetTreeType
  cases hl : mapLookup f.treeTypes (treeKey name color texture) with
  | some r => exact ⟨[], by simp [hl]⟩
  | none => exact ⟨[NewTreeType name color texture], by simp [hl]⟩

theorem TreeTypeFactory.getTotalTypes_step (f : TreeTypeFactory) (name color texture : String) :
    (f.GetTreeType name color texture).2.GetTotalTypes = f.GetTotalTypes
    ∨ (f.GetTreeType name color texture).2.GetTotalTypes = f.GetTotalTypes + 1 := by
  unfold TreeTypeFactory.GetTreeType
  cases hl : mapLookup f.treeTypes (treeKey name color texture) with
  | some r =>
    left
    simp [hl]
  | none =>
    right
    simp [hl, TreeTypeFactory.GetTotalTypes]

theorem TreeTypeFactory.runTree_lookup_mono {f : TreeTypeFactory} {k : String} {v : Nat}
    (h : mapLookup f.treeTypes k = some v) (rs : List (String × String × String)) :
    mapLookup (runTreeRequests f rs).treeTypes k = some v := by
  induction rs generalizing f with
  | nil => simpa [runTreeRequests] using h
  | cons r rs ih =>
    simp only [runTreeRequests, List.foldl_cons]
    exact ih (TreeTypeFactory.getTreeType_lookup_mono h _ _ _)

theorem TreeTypeFactory.runTree_allocated_extend (f : TreeTypeFactory)
    (rs : List (String × String × String)) :
    ∃ ds, (runTreeRequests f rs).allocated = f.allocated ++ ds := by
  induction rs generalizing f with
  | nil => exact ⟨[], by simp [runTreeRequests]⟩
  | cons r rs ih =>
    simp only [runTreeRequests, List.foldl_cons]
    obtain ⟨d1, e1⟩ := TreeTypeFactory.getTreeType_allocated_extend f r.1 r.2.1 r.2.2
    obtain ⟨d2, e2⟩ := ih ((f.GetTreeType r.1 r.2.1 r.2.2).2)
    exact ⟨d1 ++ d2, by rw [runTreeRequests] at e2; rw [e2, e1, List.append_assoc]⟩

theorem StyleFactory.getStyle_lookup_mono {f : StyleFactory} {k : String} {v : Nat}
    (h : mapLookup f.styles k = some v) (font : String) (size : Int) (color : String)
    (bold italic : Bool) :
    mapLookup (f.GetStyle font size color bold italic).2.styles k = some v := by
  unfold StyleFactory.GetStyle
  cases hl : mapLookup f.styles (styleKey font size color bold italic) with
  | some r =>
    simp only [hl]
    exact h
  | none =>
    simp only [hl]
    exact mapLookup_append_left h _

theorem StyleFactory.getStyle_allocated_extend (f : StyleFactory) (font : String) (size : Int)
    (color : String) (bold italic : Bool) :
    ∃ ds, (f.GetStyle font size color bold italic).2.allocated = f.allocated ++ ds := by
  unfold StyleFactory.GetStyle
  cases hl : mapLookup f.styles (styleKey font size color bold italic) with
  | some r => exact ⟨[], by simp [hl]⟩
  | none => exact ⟨[NewCharacterStyle font size color bold italic], by simp [hl]⟩

theorem StyleFactory.getTotalStyles_step (f : StyleFactory) (font : String) (size : Int)
    (color : String) (bold italic : Bool) :
    (f.GetStyle font size color bold italic).2.GetTotalStyles = f.GetTotalStyles
    ∨ (f.GetStyle font size color bold italic).2.GetTotalStyles = f.GetTotalStyles + 1 := by
  unfold StyleFactory.GetStyle
  cases hl : mapLookup f.styles (styleKey font size color bold italic) with
  | some r =>
    left
    simp [hl]
  | none =>
    right
    simp [hl, StyleFactory.GetTotalStyles]

theorem StyleFactory.runStyle_lookup_mono {f : StyleFactory} {k : String} {v : Nat}
    (h : mapLookup f.styles k = some v) (rs : List (String × Int × String × Bool × Bool)) :
    mapLookup (runStyleRequests f rs).styles k = some v := by
  induction rs generalizing f with
  | nil => simpa [runStyleRequests] using h
  | cons r rs ih =>
    simp only [runStyleRequests, List.foldl_cons]
    exact ih (StyleFactory.getStyle_lookup_mono h _ _ _ _ _)

theorem StyleFactory.runStyle_allocated_extend (f : StyleFactory)
    (rs : List (String × Int × String × Bool × Bool)) :
    ∃ ds, (runStyleRequests f rs).allocated = f.allocated ++ ds := by
  induction rs generalizing f with
  | nil => exact ⟨[], by simp [runStyleRequests]⟩
  | cons r rs ih =>
    simp only [runStyleRequests, List.foldl_cons]
    obtain ⟨d1, e1⟩ :=
      StyleFactory.getStyle_allocated_extend f r.1 r.2.1 r.2.2.1 r.2.2.2.1 r.2.2.2.2
    obtain ⟨d2, e2⟩ := ih ((f.GetStyle r.1 r.2.1 r.2.2.1 r.2.2.2.1 r.2.2.2.2).2)
    exact ⟨d1 ++ d2, by rw [runStyleRequests] at e2; rw [e2, e1, List.append_assoc]⟩

theorem SpriteFactory.getSprite_lookup_mono {f : SpriteFactory} {k : String} {v : Nat}
    (h : mapLookup f.sprites k = some v) (name color : String) (width height : Int) :
    mapLookup (f.GetSprite name color width height).2.sprites k = some v := by
  unfold SpriteFactory.GetSprite
  cases hl : mapLookup f.sprites (spriteKey name color width height) with
  | some r =>
    simp only [hl]
    exact h
  | none =>
    simp only [hl]
    exact mapLookup_append_left h _

theorem SpriteFactory.getSprite_allocated_extend (f : SpriteFactory) (name color : String)
    (width height : Int) :
    ∃ ds, (f.GetSprite name color width height).2.allocated = f.allocated ++ ds := by
  unfold SpriteFactory.GetSprite
  cases hl : mapLookup f.sprites (spriteKey name color width height) with
  | some r => exact ⟨[], by simp [hl]⟩
  | none => exact ⟨[NewParticleSprite name color width height], by simp [hl]⟩

theorem SpriteFactory.getTotalSprites_step (f : SpriteFactory) (name color : String)
    (width height : Int) :
    (f.GetSprite name color width height).2.GetTotalSprites = f.GetTotalSprites
    ∨ (f.GetSprite name color width height).2.GetTotalSprites = f.GetTotalSprites + 1 := by
  unfold SpriteFactory.GetSprite
  cases hl : mapLookup f.sprites (spriteKey name color width height) with
  | some r =>
    left
    simp [hl]
  | none =>
    right
    simp [hl, SpriteFactory.GetTotalSprites]

theorem SpriteFactory.runSprite_lookup_mono {f : SpriteFactory} {k : String} {v : Nat}
    (h : mapLookup f.sprites k = some v) (rs : List (String × String × Int × Int)) :
    mapLookup (runSpriteRequests f rs).sprites k = some v := by
  induction rs generalizing f with
  | nil => simpa [runSpriteRequests] using h
  | cons r rs ih =>
    simp only [runSpriteRequests, List.foldl_cons]
    exact ih (SpriteFactory.getSprite_lookup_mono h _ _ _ _)

theorem SpriteFactory.runSprite_allocated_extend (f : SpriteFactory)
    (rs : List (String × String × Int × Int)) :
    ∃ ds, (runSpriteRequests f rs).allocated = f.allocated ++ ds := by
  induction rs generalizing f with
  | nil => exact ⟨[], by simp [runSpriteRequests]⟩
  | cons r rs ih =>
    simp only [runSpriteRequests, List.foldl_cons]
    obtain ⟨d1, e1⟩ := SpriteFactory.getSprite_allocated_extend f r.1 r.2.1 r.2.2.1 r.2.2.2
    obtain ⟨d2, e2⟩ := ih ((f.GetSprite r.1 r.2.1 r.2.2.1 r.2.2.2).2)
    exact ⟨d1 ++ d2, by rw [runSpriteRequests] at e2; rw [e2, e1, List.append_assoc]⟩

/-- C4: the flyweight caches are strictly additive.  For every sequence of
acquire calls on any of the three factories: every existing key keeps its
descriptor reference (no key is removed, no entry replaced), already-allocated
descriptor objects survive unchanged (the allocation list is only extended),
and a single acquire call inserts at most one new key. -/
theorem cache_strictly_additive :
    (∀ (f : TreeTypeFactory) (rs : List (String × String × String)),
      (∀ (k : String) (v : Nat), mapLookup f.treeTypes k = some v →
          mapLookup (runTreeRequests f rs).treeTypes k = some v)
      ∧ (∃ ds, (runTreeRequests f rs).allocated = f.allocated ++ ds)
      ∧ (∀ (name color texture : String),
          (f.GetTreeType name color texture).2.GetTotalTypes = f.GetTotalTypes
          ∨ (f.GetTreeType name color texture).2.GetTotalTypes = f.GetTotalTypes + 1))
    ∧ (∀ (f : StyleFactory) (rs : List (String × Int × String × Bool × Bool)),
      (∀ (k : String) (v : Nat), mapLookup f.styles k = some v →
          mapLookup (runStyleRequests f rs).styles k = some v)
      ∧ (∃ ds, (runStyleRequests f rs).allocated = f.allocated ++ ds)
      ∧ (∀ (font : String) (size : Int) (color : String) (bold italic : Bool),
          (f.GetStyle font size color bold italic).2.GetTotalStyles = f.GetTotalStyles
          ∨ (f.GetStyle font size color bold italic).2.GetTotalStyles = f.GetTotalStyles + 1))
    ∧ (∀ (f : SpriteFactory) (rs : List (String × String × Int × Int)),
      (∀ (k : String) (v : Nat), mapLookup f.sprites k = some v →
          mapLookup (runSpriteRequests f rs).sprites k = some v)
      ∧ (∃ ds, (runSpriteRequests f rs).allocated = f.allocated ++ ds)
      ∧ (∀ (name color : String) (width height : Int),
          (f.GetSprite name color width height).2.GetTotalSprites = f.GetTotalSprites
          ∨ (f.GetSprite name color width height).2.GetTotalSprites
              = f.GetTotalSprites + 1)) := by
  refine ⟨fun f rs => ⟨fun k v h => ?_, ?_, fun name color texture => ?_⟩,
    fun f rs => ⟨fun k v h => ?_, ?_, fun font size color bold italic => ?_⟩,
    fun f rs => ⟨fun k v h => ?_, ?_, fun name color width height => ?_⟩⟩
  · exact TreeTypeFactory.runTree_lookup_mono h rs
  · exact TreeTypeFactory.runTree_allocated_extend f rs
  · exact TreeTypeFactory.getTotalTypes_step f name color texture
  · exact StyleFactory.runStyle_lookup_mono h rs
  · exact StyleFactory.runStyle_allocated_extend f rs
  · exact StyleFactory.getTotalStyles_step f font size color bold italic
  · exact SpriteFactory.runSprite_lookup_mono h rs
  · exact SpriteFactory.runSprite_allocated_extend f rs
  · exact SpriteFactory.getTotalSprites_step f name color width height

/-- Witness for C4: the key inserted by a first acquire keeps its reference
across a further request sequence, in each of the three factories. -/
theorem cache_strictly_additive_witness :
    mapLookup (runTreeRequests (NewTreeTypeFactory.GetTreeType "Oak" "Green" "Rough").2
        [("Pine", "Dark Green", "Smooth")]).treeTypes (treeKey "Oak" "Green" "Rough") = some 0
    ∧ mapLookup (runStyleRequests (NewStyleFactory.GetStyle "Arial" 12 "Black" true false).2
        [("Times", 14, "Red", false, true)]).styles
        (styleKey "Arial" 12 "Black" true false) = some 0
    ∧ mapLookup (runSpriteRequests (NewSpriteFactory.GetSprite "Spark" "Red" 16 16).2
        [("Smoke", "Gray", 16, 16)]).sprites (spriteKey "Spark" "Red" 16 16) = some 0 := by
  obtain ⟨ht, hs, hp⟩ := cache_strictly_additive
  refine ⟨(ht _ _).1 _ 0 (by decide), (hs _ _).1 _ 0 (by decide), (hp _ _).1 _ 0 (by decide)⟩

/-! ## Counting distinct keys -/

theorem TreeTypeFactory.getTreeType_miss (f : TreeTypeFactory) {name color texture : String}
    (h : mapLookup f.treeTypes (treeKey name color texture) = none) :
    f.GetTreeType name color texture = (f.allocated.length,
      { treeTypes := f.treeTypes ++ [(treeKey name color texture, f.allocated.length)],
        allocated := f.allocated ++ [NewTreeType name color texture] }) := by
  simp [TreeTypeFactory.GetTreeType, h]

theorem mapLookup_mem_keys {β : Type} {m : List (String × β)} {k : String} {v : β}
    (h : mapLookup m k = some v) : k ∈ m.map Prod.fst :=
  List.mem_map.mpr ⟨(k, v), mapLookup_mem h, rfl⟩

theorem runTreeRequests_cons (f : TreeTypeFactory) (r : String × String × String)
    (rs : List (String × String × String)) :
    runTreeRequests f (r :: rs) = runTreeRequests (f.GetTreeType r.1 r.2.1 r.2.2).2 rs :=
  rfl

theorem TreeTypeFactory.run_keys_mem (f : TreeTypeFactory)
    (rs : List (String × String × String)) (k : String) :
    k ∈ (runTreeRequests f rs).treeTypes.map Prod.fst
      ↔ k ∈ f.treeTypes.map Prod.fst
        ∨ k ∈ rs.map (fun r => treeKey r.1 r.2.1 r.2.2) := by
  induction rs generalizing f with
  | nil => simp [runTreeRequests]
  | cons r rs ih =>
    rw [runTreeRequests_cons, ih]
    cases hl : mapLookup f.treeTypes (treeKey r.1 r.2.1 r.2.2) with
    | some v =>
      rw [TreeTypeFactory.getTreeType_hit f hl]
      have hkmem : treeKey r.1 r.2.1 r.2.2 ∈ f.treeTypes.map Prod.fst := mapLookup_mem_keys hl
      simp only [List.map_cons, List.mem_cons]
      constructor
      · rintro (h | h)
        · exact Or.inl h
        · exact Or.inr (Or.inr h)
      · rintro (h | rfl | h)
        · exact Or.inl h
        · exact Or.inl hkmem
        · exact Or.inr h
    | none =>
      rw [TreeTypeFactory.getTreeType_miss f hl]
      simp only [List.map_append, List.map_cons, List.map_nil, List.mem_append,
        List.mem_singleton, List.mem_cons]
      tauto

theorem TreeTypeFactory.run_count (rs : List (String × String × String)) :
    (runTreeRequests NewTreeTypeFactory rs).GetTotalTypes
      = (rs.map (fun r => treeKey r.1 r.2.1 r.2.2)).dedup.length := by
  have hwf := TreeTypeFactory.runTree_WF TreeTypeFactory.newTreeFactory_WF rs
  have hnd : ((runTreeRequests NewTreeTypeFactory rs).treeTypes.map Prod.fst).Nodup := hwf.2.2
  have hset : ((runTreeRequests NewTreeTypeFactory rs).treeTypes.map Prod.fst).toFinset
      = (rs.map (fun r => treeKey r.1 r.2.1 r.2.2)).toFinset := by
    ext k
    simp only [List.mem_toFinset]
    rw [TreeTypeFactory.run_keys_mem]
    simp [NewTreeTypeFactory]
  calc (runTreeRequests NewTreeTypeFactory rs).GetTotalTypes
      = ((runTreeRequests NewTreeTypeFactory rs).treeTypes.map Prod.fst).length :=
        (List.length_map _ _).symm
    _ = ((runTreeRequests NewTreeTypeFactory rs).treeTypes.map Prod.fst).toFinset.card :=
        (List.toFinset_card_of_nodup hnd).symm
    _ = (rs.map (fun r => treeKey r.1 r.2.1 r.2.2)).toFinset.card := by rw [hset]
    _ = (rs.map (fun r => treeKey r.1 r.2.1 r.2.2)).dedup.length := List.card_toFinset _

/-- A `Forest.PlantTree` call, bundled for request sequences. -/
structure PlantRequest where
  x : Int
  y : Int
  name : String
  color : String
  texture : String

def Forest.PlantTrees (f : Forest) (rs : List PlantRequest) : Forest :=
  rs.foldl (fun g r => g.PlantTree r.x r.y r.name r.color r.texture) f

theorem Forest.plantTrees_factory (f : Forest) (rs : List PlantRequest) :
    (f.PlantTrees rs).factory
      = runTreeRequests f.factory (rs.map (fun r => (r.name, r.color, r.texture))) := by
  induction rs generalizing f with
  | nil => rfl
  | cons r rs ih =>
    simp only [Forest.PlantTrees, List.foldl_cons, List.map_cons, runTreeRequests_cons]
    exact ih (f.PlantTree r.x r.y r.name r.color r.texture)

theorem Forest.plantTrees_trees_length (f : Forest) (rs : List PlantRequest) :
    (f.PlantTrees rs).trees.length = f.trees.length + rs.length := by
  induction rs generalizing f with
  | nil => simp [Forest.PlantTrees]
  | cons r rs ih =>
    simp only [Forest.PlantTrees, List.foldl_cons, List.length_cons] at *
    rw [ih (f.PlantTree r.x r.y r.name r.color r.texture)]
    simp [Forest.PlantTree]
    omega

/-- C5: planting `N` trees whose attribute tuples produce `K` distinct cache
keys leaves exactly `K` shared descriptors in the factory (`GetTotalTypes`
returns the number of distinct keys), while the forest holds all `N` context
entries. -/
theorem plant_n_trees_k_types :
    ∀ rs : List PlantRequest,
      (NewForest.PlantTrees rs).trees.length = rs.length
      ∧ (NewForest.PlantTrees rs).factory.GetTotalTypes
          = (rs.map (fun r => treeKey r.name r.color r.texture)).dedup.length := by
  intro rs
  constructor
  · rw [Forest.plantTrees_trees_length]
    simp [NewForest]
  · rw [Forest.plantTrees_factory]
    have : (NewForest.factory) = NewTreeTypeFactory := rfl
    rw [this, TreeTypeFactory.run_count]
    rw [List.map_map]
    have hfun : ((fun r => treeKey r.1 r.2.1 r.2.2)
          ∘ fun (r : PlantRequest) => (r.name, r.color, r.texture))
        = fun r => treeKey r.name r.color r.texture := by
      funext r
      rfl
    rw [hfun]

/-- C6: requesting `("Oak","Green","Rough")` three times and
`("Pine","Dark Green","Smooth")` twice, starting from an empty
`TreeTypeFactory`, leaves a cache of size exactly 2, and the three Oak
requests all return the identical descriptor reference. -/
theorem oak_pine_scenario :
    (runTreeRequests NewTreeTypeFactory
        [("Oak", "Green", "Rough"), ("Pine", "Dark Green", "Smooth"),
         ("Oak", "Green", "Rough"), ("Pine", "Dark Green", "Smooth"),
         ("Oak", "Green", "Rough")]).GetTotalTypes = 2
    ∧ ((runTreeRequests NewTreeTypeFactory
          [("Oak", "Green", "Rough"), ("Pine", "Dark Green", "Smooth")]).GetTreeType
          "Oak" "Green" "Rough").1
        = ((runTreeRequests NewTreeTypeFactory []).GetTreeType "Oak" "Green" "Rough").1
    ∧ ((runTreeRequests NewTreeTypeFactory
          [("Oak", "Green", "Rough"), ("Pine", "Dark Green", "Smooth"),
           ("Oak", "Green", "Rough"), ("Pine", "Dark Green", "Smooth")]).GetTreeType
          "Oak" "Green" "Rough").1
        = ((runTreeRequests NewTreeTypeFactory []).GetTreeType "Oak" "Green" "Rough").1 := by
  decide

/-- C2: on any factory reachable from its constructor, acquiring two attribute
tuples whose `"-"`-joined keys differ returns distinct descriptor references,
and each acquire of a previously-unseen key grows the distinct-entry count by
exactly one.  Stated for all three flyweight factories. -/
theorem acquire_distinct_keys_distinct_handles :
    (∀ (rs : List (String × String × String)) (n1 c1 t1 n2 c2 t2 : String),
      treeKey n1 c1 t1 ≠ treeKey n2 c2 t2 →
      ((((runTreeRequests NewTreeTypeFactory rs).GetTreeType n1 c1 t1).2.GetTreeType
            n2 c2 t2).1
          ≠ ((runTreeRequests NewTreeTypeFactory rs).GetTreeType n1 c1 t1).1)
        ∧ (mapLookup (runTreeRequests NewTreeTypeFactory rs).treeTypes (treeKey n1 c1 t1)
              = none →
            ((runTreeRequests NewTreeTypeFactory rs).GetTreeType n1 c1 t1).2.GetTotalTypes
              = (runTreeRequests NewTreeTypeFactory rs).GetTotalTypes + 1)
        ∧ (mapLookup ((runTreeRequests NewTreeTypeFactory rs).GetTreeType n1 c1 t1).2.treeTypes
              (treeKey n2 c2 t2) = none →
            (((runTreeRequests NewTreeTypeFactory rs).GetTreeType n1 c1 t1).2.GetTreeType
                n2 c2 t2).2.GetTotalTypes
              = ((runTreeRequests NewTreeTypeFactory rs).GetTreeType
                  n1 c1 t1).2.GetTotalTypes + 1))
    ∧ (∀ (rs : List (String × Int × String × Bool × Bool)) (f1 : String) (s1 : Int)
        (c1 : String) (b1 i1 : Bool) (f2 : String) (s2 : Int) (c2 : String) (b2 i2 : Bool),
      styleKey f1 s1 c1 b1 i1 ≠ styleKey f2 s2 c2 b2 i2 →
      ((((runStyleRequests NewStyleFactory rs).GetStyle f1 s1 c1 b1 i1).2.GetStyle
            f2 s2 c2 b2 i2).1
          ≠ ((runStyleRequests NewStyleFactory rs).GetStyle f1 s1 c1 b1 i1).1)
        ∧ (mapLookup (runStyleRequests NewStyleFactory rs).styles (styleKey f1 s1 c1 b1 i1)
              = none →
            ((runStyleRequests NewStyleFactory rs).GetStyle f1 s1 c1 b1 i1).2.GetTotalStyles
              = (runStyleRequests NewStyleFactory rs).GetTotalStyles + 1)
        ∧ (mapLookup ((runStyleRequests NewStyleFactory rs).GetStyle f1 s1 c1 b1 i1).2.styles
              (styleKey f2 s2 c2 b2 i2) = none →
            (((runStyleRequests NewStyleFactory rs).GetStyle f1 s1 c1 b1 i1).2.GetStyle
                f2 s2 c2 b2 i2).2.GetTotalStyles
              = ((runStyleRequests NewStyleFactory rs).GetStyle
                  f1 s1 c1 b1 i1).2.GetTotalStyles + 1))
    ∧ (∀ (rs : List (String × String × Int × Int)) (m1 c1 : String) (w1 h1 : Int)
        (m2 c2 : String) (w2 h2 : Int),
      spriteKey m1 c1 w1 h1 ≠ spriteKey m2 c2 w2 h2 →
      ((((runSpriteRequests NewSpriteFactory rs).GetSprite m1 c1 w1 h1).2.GetSprite
            m2 c2 w2 h2).1
          ≠ ((runSpriteRequests NewSpriteFactory rs).GetSprite m1 c1 w1 h1).1)
        ∧ (mapLookup (runSpriteRequests NewSpriteFactory rs).sprites (spriteKey m1 c1 w1 h1)
              = none →
            ((runSpriteRequests NewSpriteFactory rs).GetSprite m1 c1 w1 h1).2.GetTotalSprites
              = (runSpriteRequests NewSpriteFactory rs).GetTotalSprites + 1)
        ∧ (mapLookup ((runSpriteRequests NewSpriteFactory rs).GetSprite m1 c1 w1 h1).2.sprites
              (spriteKey m2 c2 w2 h2) = none →
            (((runSpriteRequests NewSpriteFactory rs).GetSprite m1 c1 w1 h1).2.GetSprite
                m2 c2 w2 h2).2.GetTotalSprites
              = ((runSpriteRequests NewSpriteFactory rs).GetSprite
                  m1 c1 w1 h1).2.GetTotalSprites + 1)) := by
  refine ⟨?_, ?_, ?_⟩
  · intro rs n1 c1 t1 n2 c2 t2 hk
    exact ⟨TreeTypeFactory.getTreeType_ne (TreeTypeFactory.runTree_WF TreeTypeFactory.newTreeFactory_WF rs) hk,
      fun hm => TreeTypeFactory.getTotalTypes_miss hm,
      fun hm => TreeTypeFactory.getTotalTypes_miss hm⟩
  · intro rs f1 s1 c1 b1 i1 f2 s2 c2 b2 i2 hk
    exact ⟨StyleFactory.getStyle_ne (StyleFactory.runStyle_WF StyleFactory.newStyleFactory_WF rs) hk,
      fun hm => StyleFactory.getTotalStyles_miss hm,
      fun hm => StyleFactory.getTotalStyles_miss hm⟩
  · intro rs m1 c1 w1 h1 m2 c2 w2 h2 hk
    exact ⟨SpriteFactory.getSprite_ne (SpriteFactory.runSprite_WF SpriteFactory.newSpriteFactory_WF rs) hk,
      fun hm => SpriteFactory.getTotalSprites_miss hm,
      fun hm => SpriteFactory.getTotalSprites_miss hm⟩

/-- Witness for C2 at concrete inputs: empty request history, tree tuples
`("Oak","Green","Rough")` vs `("Pine","Dark Green","Smooth")`, style tuples
`("Arial",12,"Black",true,false)` vs `("Times",14,"Red",false,true)`, sprite
tuples `("Spark","Red",16,16)` vs `("Smoke","Gray",16,16)`. -/
theorem acquire_distinct_keys_distinct_handles_witness :
    (((((runTreeRequests NewTreeTypeFactory []).GetTreeType "Oak" "Green" "Rough").2.GetTreeType
          "Pine" "Dark Green" "Smooth").1
        ≠ ((runTreeRequests NewTreeTypeFactory []).GetTreeType "Oak" "Green" "Rough").1)
      ∧ ((runTreeRequests NewTreeTypeFactory []).GetTreeType
            "Oak" "Green" "Rough").2.GetTotalTypes
          = (runTreeRequests NewTreeTypeFactory []).GetTotalTypes + 1
      ∧ (((runTreeRequests NewTreeTypeFactory []).GetTreeType "Oak" "Green" "Rough").2.GetTreeType
            "Pine" "Dark Green" "Smooth").2.GetTotalTypes
          = ((runTreeRequests NewTreeTypeFactory []).GetTreeType
              "Oak" "Green" "Rough").2.GetTotalTypes + 1)
    ∧ (((((runStyleRequests NewStyleFactory []).GetStyle "Arial" 12 "Black" true false).2.GetStyle
          "Times" 14 "Red" false true).1
        ≠ ((runStyleRequests NewStyleFactory []).GetStyle "Arial" 12 "Black" true false).1)
      ∧ ((runStyleRequests NewStyleFactory []).GetStyle
            "Arial" 12 "Black" true false).2.GetTotalStyles
          = (runStyleRequests NewStyleFactory []).GetTotalStyles + 1
      ∧ (((runStyleRequests NewStyleFactory []).GetStyle
            "Arial" 12 "Black" true false).2.GetStyle "Times" 14 "Red" false true).2.GetTotalStyles
          = ((runStyleRequests NewStyleFactory []).GetStyle
              "Arial" 12 "Black" true false).2.GetTotalStyles + 1)
    ∧ (((((runSpriteRequests NewSpriteFactory []).GetSprite "Spark" "Red" 16 16).2.GetSprite
          "Smoke" "Gray" 16 16).1
        ≠ ((runSpriteRequests NewSpriteFactory []).GetSprite "Spark" "Red" 16 16).1)
      ∧ ((runSpriteRequests NewSpriteFactory []).GetSprite "Spark" "Red" 16 16).2.GetTotalSprites
          = (runSpriteRequests NewSpriteFactory []).GetTotalSprites + 1
      ∧ (((runSpriteRequests NewSpriteFactory []).GetSprite "Spark" "Red" 16 16).2.GetSprite
            "Smoke" "Gray" 16 16).2.GetTotalSprites
          = ((runSpriteRequests NewSpriteFactory []).GetSprite
              "Spark" "Red" 16 16).2.GetTotalSprites + 1) := by
  obtain ⟨ht, hs, hp⟩ := acquire_distinct_keys_distinct_handles
  obtain ⟨ht1, ht2, ht3⟩ :=
    ht [] "Oak" "Green" "Rough" "Pine" "Dark Green" "Smooth" (by decide)
  obtain ⟨hs1, hs2, hs3⟩ :=
    hs [] "Arial" 12 "Black" true false "Times" 14 "Red" false true (by decide)
  obtain ⟨hp1, hp2, hp3⟩ :=
    hp [] "Spark" "Red" 16 16 "Smoke" "Gray" 16 16 (by decide)
  exact ⟨⟨ht1, ht2 (by decide), ht3 (by decide)⟩,
    ⟨hs1, hs2 (by decide), hs3 (by decide)⟩,
    ⟨hp1, hp2 (by decide), hp3 (by decide)⟩⟩

/-! ## Adapter: `MediaAdapter.Play`

The delegated playback call is reified as a `PlayAction`; the source's
`error`/`nil` return becomes `Except.error`/`Except.ok`. -/

inductive PlayAction where
  | audio (fileName : String)
  | video (fileName : String)
  | vlc (fileName : String)
deriving DecidableEq, Repr

/-- Character-wise lower-casing, modelling Go's `strings.ToLower` (which
lowers each rune independently; the media types used here are ASCII). -/
def toLowerStr (s : String) : String :=
  { data := s.data.map Char.toLower }

def MediaAdapter.Play (mediaType fileName : String) : Except String PlayAction :=
  let t := toLowerStr mediaType
  if t = "mp3" ∨ t = "wav" ∨ t = "audio" then Except.ok (PlayAction.audio fileName)
  else if t = "mp4" ∨ t = "avi" ∨ t = "video" then Except.ok (PlayAction.video fileName)
  else if t = "vlc" ∨ t = "mkv" then Except.ok (PlayAction.vlc fileName)
  else Except.error ("unsupported media type: " ++ mediaType)

/-- C7: `MediaAdapter.Play` fails exactly when the lower-cased media type is
outside the supported set; in particular `"unknown"` yields an error and no
playback action. -/
theorem mediaAdapter_play_unsupported :
    (∀ mediaType fileName : String,
      (∃ e, MediaAdapter.Play mediaType fileName = Except.error e)
        ↔ toLowerStr mediaType ∉
            (["mp3", "wav", "audio", "mp4", "avi", "video", "vlc", "mkv"] : List String))
    ∧ ∀ fileName : String,
        MediaAdapter.Play "unknown" fileName
          = Except.error "unsupported media type: unknown" := by
  constructor
  · intro mediaType fileName
    unfold MediaAdapter.Play
    constructor
    · rintro ⟨e, he⟩ hmem
      simp only [List.mem_cons, List.mem_nil_iff, or_false] at hmem
      rcases hmem with h | h | h | h | h | h | h | h <;> simp [h] at he
    · intro hmem
      simp only [List.mem_cons, List.mem_nil_iff, or_false] at hmem
      push_neg at hmem
      obtain ⟨hm1, hm2, hm3, hm4, hm5, hm6, hm7, hm8⟩ := hmem
      refine ⟨"unsupported media type: " ++ mediaType, ?_⟩
      rw [if_neg (by tauto), if_neg (by tauto), if_neg (by tauto)]
  · intro fileName
    unfold MediaAdapter.Play
    rw [if_neg (by decide), if_neg (by decide), if_neg (by decide)]
    rfl

/-! ## Proxy: `DatabaseProxy` -/

structure RealDatabase where
  connectionString : String
deriving DecidableEq, Repr

def NewRealDatabase (connectionString : String) : RealDatabase :=
  { connectionString := connectionString }

def RealDatabase.Query (d : RealDatabase) (sql : String) : String :=
  "QUERY_RESULT"

structure DatabaseProxy where
  userRole : String
  realDatabase : RealDatabase
deriving DecidableEq, Repr

def NewDatabaseProxy (userRole : String) : DatabaseProxy :=
  { userRole := userRole, realDatabase := NewRealDatabase "localhost:5432/mydb" }

/-- `checkAccess`, with `none` modelling the Go panic raised by the slice
expression `sql[:6]` when `len(sql) < 6` (the slice is only evaluated in the
`"user"` branch, after the role comparisons, by Go's left-to-right
short-circuit evaluation). -/
def DatabaseProxy.checkAccess (p : DatabaseProxy) (sql : String) : Option Bool :=
  if p.userRole = "admin" then some true
  else if p.userRole = "user" then
    if sql.length < 6 then none
    else if sql.take 6 = "SELECT" ∨ sql.take 6 = "select" then some true
    else some false
  else some false

/-- `Query`; the `Bool` in the result records whether the real database was
invoked, and `none` propagates the panic from `checkAccess`. -/
def DatabaseProxy.Query (p : DatabaseProxy) (sql : String) : Option (String × Bool) :=
  match p.checkAccess sql with
  | none => none
  | some false => some ("ACCESS_DENIED", false)
  | some true => some (p.realDatabase.Query sql, true)

/-- C8: with role `"user"`, any SQL of length at least 6 that starts with
neither `"SELECT"` nor `"select"` is answered `ACCESS_DENIED` without touching
the real database; with role `"admin"`, every query is granted and forwarded
to the real database. -/
theorem databaseProxy_access_control :
    (∀ (p : DatabaseProxy) (sql : String), p.userRole = "user" → 6 ≤ sql.length →
      sql.take 6 ≠ "SELECT" → sql.take 6 ≠ "select" →
      p.Query sql = some ("ACCESS_DENIED", false))
    ∧ (∀ (p : DatabaseProxy) (sql : String), p.userRole = "admin" →
      p.Query sql = some ("QUERY_RESULT", true)) := by
  constructor
  · intro p sql hrole hlen h1 h2
    have hlen' : ¬ sql.length < 6 := by omega
    have hca : p.checkAccess sql = some false := by
      simp [DatabaseProxy.checkAccess, hrole, hlen', h1, h2]
    simp [DatabaseProxy.Query, hca]
  · intro p sql hrole
    have hca : p.checkAccess sql = some true := by
      simp [DatabaseProxy.checkAccess, hrole]
    simp [DatabaseProxy.Query, hca, RealDatabase.Query]

/-- Witness for C8: concrete denied and granted queries. -/
theorem databaseProxy_access_control_witness :
    (NewDatabaseProxy "user").Query "DELETE FROM t" = some ("ACCESS_DENIED", false)
    ∧ (NewDatabaseProxy "admin").Query "DROP TABLE x" = some ("QUERY_RESULT", true) :=
  ⟨databaseProxy_access_control.1 _ _ rfl (by decide) (by decide) (by decide),
   databaseProxy_access_control.2 _ _ rfl⟩

/-- C9: `DatabaseProxy.Query` is not total for role `"user"`: any SQL string
shorter than 6 characters makes the slice `sql[:6]` in `checkAccess` go out
of bounds, so the call panics (modelled by `none`) instead of returning a
result or failure signal; `"use"` is such an input. -/
theorem databaseProxy_short_sql_panics :
    (∀ (p : DatabaseProxy) (sql : String), p.userRole = "user" → sql.length < 6 →
      p.Query sql = none)
    ∧ (NewDatabaseProxy "user").Query "use" = none := by
  constructor
  · intro p sql hrole hlen
    have hca : p.checkAccess sql = none := by
      simp [DatabaseProxy.checkAccess, hrole, hlen]
    simp [DatabaseProxy.Query, hca]
  · decide

/-- Witness for C9 at the concrete input `"use"`. -/
theorem databaseProxy_short_sql_panics_witness :
    (NewDatabaseProxy "user").Query "use" = none :=
  databaseProxy_short_sql_panics.1 _ "use" rfl (by decide)

/-! ## Proxy: `BankAccountProxy`

Account balances are modelled by `ℚ`; the claim proved below performs no
arithmetic on the balance, so the substitution for Go's `float64` is inert. -/

structure RealBankAccount where
  accountNumber : String
  balance : ℚ
deriving DecidableEq, Repr

def NewRealBankAccount (accountNumber : String) (balance : ℚ) : RealBankAccount :=
  { accountNumber := accountNumber, balance := balance }

def RealBankAccount.Withdraw (b : RealBankAccount) (amount : ℚ) : Bool × RealBankAccount :=
  if b.balance ≥ amount then
    (true, { b with balance := b.balance - amount })
  else
    (false, b)

def RealBankAccount.GetBalance (b : RealBankAccount) : ℚ :=
  b.balance

structure BankAccountProxy where
  pin : String
  realAccount : RealBankAccount
  attemptCount : Int
  locked : Bool
deriving DecidableEq, Repr

def NewBankAccountProxy (accountNumber : String) (balance : ℚ) (pin : String) :
    BankAccountProxy :=
  { pin := pin, realAccount := NewRealBankAccount accountNumber balance,
    attemptCount := 0, locked := false }

def BankAccountProxy.Withdraw (p : BankAccountProxy) (amount : ℚ) : Bool × BankAccountProxy :=
  let r := p.realAccount.Withdraw amount
  (r.1, { p with realAccount := r.2 })

def BankAccountProxy.GetBalance (p : BankAccountProxy) : ℚ :=
  p.realAccount.GetBalance

def BankAccountProxy.AuthenticateAndWithdraw (p : BankAccountProxy) (enteredPin : String)
    (amount : ℚ) : Bool × BankAccountProxy :=
  if p.locked then (false, p)
  else if enteredPin ≠ p.pin then
    let attemptCount := p.attemptCount + 1
    if attemptCount ≥ 3 then
      (false, { p with attemptCount := attemptCount, locked := true })
    else
      (false, { p with attemptCount := attemptCount })
  else
    BankAccountProxy.Withdraw { p with attemptCount := 0 } amount

def runAuthCalls (p : BankAccountProxy) (calls : List (String × ℚ)) : BankAccountProxy :=
  calls.foldl (fun q c => (q.AuthenticateAndWithdraw c.1 c.2).2) p

/-- C10: a locked `BankAccountProxy` is locked forever.  A single
`AuthenticateAndWithdraw` on a locked proxy returns `false` and leaves the
whole proxy (hence the balance and the `locked` flag) unchanged, any sequence
of further calls leaves it unchanged, and three wrong-PIN attempts starting
from a fresh proxy do lock it. -/
theorem locked_account_never_withdraws :
    (∀ (p : BankAccountProxy) (enteredPin : String) (amount : ℚ), p.locked = true →
      p.AuthenticateAndWithdraw enteredPin amount = (false, p))
    ∧ (∀ (p : BankAccountProxy) (calls : List (String × ℚ)), p.locked = true →
      runAuthCalls p calls = p)
    ∧ (∀ (accountNumber : String) (balance : ℚ) (pin wrongPin : String), wrongPin ≠ pin →
      (runAuthCalls (NewBankAccountProxy accountNumber balance pin)
        [(wrongPin, 0), (wrongPin, 0), (wrongPin, 0)]).locked = true) := by
  have hstep : ∀ (p : BankAccountProxy) (enteredPin : String) (amount : ℚ), p.locked = true →
      p.AuthenticateAndWithdraw enteredPin amount = (false, p) := by
    intro p enteredPin amount hlocked
    simp [BankAccountProxy.AuthenticateAndWithdraw, hlocked]
  refine ⟨hstep, ?_, ?_⟩
  · intro p calls hlocked
    induction calls with
    | nil => rfl
    | cons c cs ih =>
      simp only [runAuthCalls, List.foldl_cons] at *
      rw [hstep p c.1 c.2 hlocked]
      exact ih
  · intro accountNumber balance pin wrongPin hne
    simp [runAuthCalls, BankAccountProxy.AuthenticateAndWithdraw, NewBankAccountProxy, hne]

/-- Witness for C10: a proxy locked by three wrong PIN entries rejects a
withdrawal even with the correct PIN. -/
theorem locked_account_never_withdraws_witness :
    ((runAuthCalls (NewBankAccountProxy "ACC-12345" 1000 "1234")
        [("0000", 0), ("0000", 0), ("0000", 0)]).AuthenticateAndWithdraw "1234" 100).1 = false
    ∧ (runAuthCalls (NewBankAccountProxy "ACC-12345" 1000 "1234")
        [("0000", 0), ("0000", 0), ("0000", 0)]).locked = true := by
  have hlocked := locked_account_never_withdraws.2.2 "ACC-12345" 1000 "1234" "0000" (by decide)
  have h1 := locked_account_never_withdraws.1 _ "1234" 100 hlocked
  exact ⟨by rw [h1], hlocked⟩

end DPG
